import Mathlib

/-!
# Verification of the victoria-metrics-cli conversion and formatting layer

A shallow embedding, in Lean 4, of the data-conversion, time-range and
formatting functions of the `victoria-metrics-cli` Rust repository
(`src/utils.rs`, `src/commands/export.rs`, `src/commands/import.rs`,
`src/api.rs`), together with theorems settling the specification claims
about them.

Modelling conventions:
* Rust `&str`/`String` values are Lean `String`s; most helpers work on the
  underlying `List Char` (`String.data`), which mirrors byte-exact Rust
  string scanning for the ASCII inputs these functions deal with.
* Rust `f64` values are modelled as exact rationals (`ℚ`); numeric literals
  appearing in the repository's data (decimal numbers with optional sign,
  fraction and exponent) are all exactly representable.  Non-finite floats
  (`inf`/`nan`) are outside the rational model and are noted where relevant.
* `chrono::Utc::now()` is modelled as an explicit integer parameter `now`
  (unix seconds), making the time-range resolver a pure function.
* `std::collections::HashMap` is modelled as an association list holding the
  map's entries in its (unspecified) iteration order; what iteration orders
  a map built from a given insertion sequence may have is captured by an
  explicit relation (`IsHashMapIterationOf`).
-/

set_option maxRecDepth 8000

namespace VmCli

/-! ## Character and string primitives

Rust string scanning primitives (`split_once`, `rsplit_once`, `trim`,
`lines`, `contains`, `starts_with`, `strip_suffix`, `trim_matches`,
`split`) re-implemented on `List Char`. -/

def quoteC : Char := Char.ofNat 34

def lbraceC : Char := Char.ofNat 123

def rbraceC : Char := Char.ofNat 125

def quoteS : String := String.mk [quoteC]

def lbraceS : String := String.mk [lbraceC]

def rbraceS : String := String.mk [rbraceC]

/-- Does `s` start with the pattern `pat` (first argument)?  Model of Rust
`str::starts_with`. -/
def startsWithL : List Char → List Char → Bool
  | [], _ => true
  | _ :: _, [] => false
  | p :: ps, c :: cs => p = c && startsWithL ps cs

def startsWithS (s pat : String) : Bool := startsWithL pat.data s.data

/-- Does `l` contain `pat` as a contiguous substring?  Model of Rust
`str::contains` with a string pattern. -/
def hasSubL (pat : List Char) : List Char → Bool
  | [] => startsWithL pat []
  | c :: cs => startsWithL pat (c :: cs) || hasSubL pat cs

def containsSub (s pat : String) : Bool := hasSubL pat.data s.data

/-- Split at the first occurrence of `c`, returning the parts before and
after it.  Model of Rust `str::split_once`. -/
def splitOnceL (c : Char) : List Char → Option (List Char × List Char)
  | [] => none
  | x :: xs =>
    if x = c then some ([], xs)
    else (splitOnceL c xs).map (fun p => (x :: p.1, p.2))

/-- Split at the last occurrence of `c`, returning the parts before and
after it.  Model of Rust `str::rsplit_once`. -/
def rsplitOnceL (c : Char) (l : List Char) : Option (List Char × List Char) :=
  (splitOnceL c l.reverse).map (fun p => (p.2.reverse, p.1.reverse))

/-- The Unicode `White_Space` character class: exactly the characters
Rust `char::is_whitespace` accepts and `str::trim` strips (U+0009–U+000D,
U+0020, U+0085, U+00A0, U+1680, U+2000–U+200A, U+2028, U+2029, U+202F,
U+205F, U+3000). -/
def isWsC (c : Char) : Bool :=
  (9 ≤ c.toNat && c.toNat ≤ 13) || c.toNat = 32 || c.toNat = 133 || c.toNat = 160 ||
    c.toNat = 5760 || (8192 ≤ c.toNat && c.toNat ≤ 8202) || c.toNat = 8232 ||
    c.toNat = 8233 || c.toNat = 8239 || c.toNat = 8287 || c.toNat = 12288

/-- Model of Rust `str::trim`. -/
def strTrim (s : String) : String :=
  String.mk (((s.data.dropWhile isWsC).reverse.dropWhile isWsC).reverse)

/-- Split on every occurrence of `c` (Rust `str::split(c)`): splitting the
empty string yields one empty piece. -/
def splitCharL (c : Char) : List Char → List (List Char)
  | [] => [[]]
  | x :: xs =>
    let r := splitCharL c xs
    if x = c then [] :: r
    else
      match r with
      | h :: t => (x :: h) :: t
      | [] => [[x]]

/-- Strip one trailing carriage return. -/
def stripCR (l : List Char) : List Char :=
  if l.getLast? = some '\r' then l.dropLast else l

/-- Model of Rust `str::lines`: pieces between newline characters, with a
final line terminator optional, and a carriage return preceding a line
feed stripped.  A trailing carriage return on an unterminated final line is
kept, as in Rust. -/
def rustLinesL (l : List Char) : List (List Char) :=
  let parts := splitCharL '\n' l
  let body := parts.dropLast.map stripCR
  match parts.getLast? with
  | some [] => body
  | some last => body ++ [last]
  | none => []

def rustLines (s : String) : List String :=
  (rustLinesL s.data).map String.mk

/-- Strip one trailing closing brace.  Model of Rust
`str::strip_suffix` applied to the closing-brace character. -/
def stripRBrace (l : List Char) : Option (List Char) :=
  if l.getLast? = some rbraceC then some l.dropLast else none

/-- Remove every leading and trailing double quote.  Model of Rust
`str::trim_matches('"')`. -/
def trimQuotes (l : List Char) : List Char :=
  ((l.dropWhile (fun c => c = quoteC)).reverse.dropWhile (fun c => c = quoteC)).reverse

/-- `sep`-joined concatenation, model of Rust `[String]::join`. -/
def joinSep (sep : String) : List String → String
  | [] => ""
  | [x] => x
  | x :: y :: t => x ++ sep ++ joinSep sep (y :: t)

/-! ## The `f64` number model

`parseF64Ok` models *success* of Rust `str::parse::<f64>` (the grammar
documented for `f64::from_str`: optional sign, then `inf`/`infinity`/`nan`
case-insensitively, or a decimal mantissa with optional fraction and
exponent).  `parseF64Rat` additionally produces the exact rational value of
a finite numeric literal (non-finite floats are outside the rational model
and yield `none`; the one caller, `format_data_json`, substitutes `0` for
unparsable tokens exactly as the source's `unwrap_or(0.0)` does). -/

/-- Exact rational arithmetic built on `Rat.divInt` (which normalizes).
The library's `Rat.add`/`Rat.mul` are irreducible to `decide`, so the
embedding carries its own equivalent operations. -/
def intRat (n : Int) : ℚ := Rat.divInt n 1

def ratAdd (a b : ℚ) : ℚ := Rat.divInt (a.num * (b.den : Int) + b.num * (a.den : Int)) ((a.den : Int) * (b.den : Int))

def ratMul (a b : ℚ) : ℚ := Rat.divInt (a.num * b.num) ((a.den : Int) * (b.den : Int))

def ratDiv (a b : ℚ) : ℚ := Rat.divInt (a.num * (b.den : Int)) ((a.den : Int) * b.num)

def ratPow10 (e : Int) : ℚ :=
  if 0 ≤ e then intRat ((10 : Int) ^ e.toNat) else Rat.divInt 1 ((10 : Int) ^ (-e).toNat)

def digits1 (l : List Char) : Bool := !l.isEmpty && l.all Char.isDigit

def expOkF64 : List Char → Bool
  | '+' :: rest => digits1 rest
  | '-' :: rest => digits1 rest
  | l => digits1 l

def mantOkF64 (l : List Char) : Bool :=
  match l.span Char.isDigit with
  | (ip, []) => !ip.isEmpty
  | (ip, '.' :: fp) => fp.all Char.isDigit && (!ip.isEmpty || !fp.isEmpty)
  | _ => false

def numberOkF64 (l : List Char) : Bool :=
  match l.span (fun c => !(c = 'e' || c = 'E')) with
  | (mant, []) => mantOkF64 mant
  | (mant, _ :: er) => mantOkF64 mant && expOkF64 er

def bodyOkF64 (l : List Char) : Bool :=
  let low := l.map Char.toLower
  low = ['i', 'n', 'f'] || low = ['i', 'n', 'f', 'i', 'n', 'i', 't', 'y'] ||
    low = ['n', 'a', 'n'] || numberOkF64 l

def parseF64Ok (s : String) : Bool :=
  match s.data with
  | [] => false
  | '+' :: rest => bodyOkF64 rest
  | '-' :: rest => bodyOkF64 rest
  | l => bodyOkF64 l

def digitsToNat (l : List Char) : Nat :=
  l.foldl (fun n c => 10 * n + (c.toNat - 48)) 0

def mantToRat (l : List Char) : Option ℚ :=
  match l.span Char.isDigit with
  | (ip, []) => if ip.isEmpty then none else some (intRat (digitsToNat ip : Int))
  | (ip, '.' :: fp) =>
    if fp.all Char.isDigit && (!ip.isEmpty || !fp.isEmpty) then
      some (ratAdd (intRat (digitsToNat ip : Int))
        (Rat.divInt (digitsToNat fp : Int) ((10 : Int) ^ fp.length)))
    else none
  | _ => none

def expToInt : List Char → Option Int
  | '+' :: rest => if digits1 rest then some (digitsToNat rest : Int) else none
  | '-' :: rest => if digits1 rest then some (-(digitsToNat rest : Int)) else none
  | l => if digits1 l then some (digitsToNat l : Int) else none

def numberToRat (l : List Char) : Option ℚ :=
  match l.span (fun c => !(c = 'e' || c = 'E')) with
  | (mant, []) => mantToRat mant
  | (mant, _ :: er) =>
    match mantToRat mant, expToInt er with
    | some m, some e => some (ratMul m (ratPow10 e))
    | _, _ => none

def parseF64Rat (s : String) : Option ℚ :=
  match s.data with
  | [] => none
  | '+' :: rest => numberToRat rest
  | '-' :: rest => (numberToRat rest).map Rat.neg
  | l => numberToRat l

/-- Truncation toward zero, model of Rust `as i64` on a finite float. -/
def ratTrunc (q : ℚ) : Int := if q.num < 0 then -((Rat.neg q).floor) else q.floor

/-- Least decimal exponent clearing the denominator (searched up to 1100,
which covers every binary-fraction denominator an `f64` can have). -/
def decExp (den : Nat) : Option Nat := (List.range 1101).find? (fun k => den ∣ 10 ^ k)

/-- Rendering of a finite `f64` by Rust's `Display`, modelled on the exact
rational: an integral value prints without a point, a binary/decimal
fraction prints its exact (shortest) decimal expansion.  Values whose
denominator divides no power of ten cannot arise from an `f64` and get a
fallback rendering. -/
def f64Str (q : ℚ) : String :=
  if q.den = 1 then toString q.num
  else
    match decExp q.den with
    | some k =>
      let n := q.num.natAbs * (10 ^ k / q.den)
      let ds := Nat.toDigits 10 n
      let ds := List.replicate (k + 1 - ds.length) '0' ++ ds
      let sign := if q.num < 0 then "-" else ""
      sign ++ String.mk (ds.take (ds.length - k)) ++ "." ++ String.mk (ds.drop (ds.length - k))
    | none => toString q.num ++ "/" ++ toString q.den


/-! ## `src/commands/export.rs`: `ExportCommand::format_data`

The `Json` branch turns each non-comment, non-blank exposition line into a
record `{"metric": {"__name__": name, ...labels}, "value": [timestamp,
value]}` (modelled by `MetricRecord`; the final `serde_json` pretty-printing
of the record array is surface syntax and is abstracted).  The `Csv` branch
builds the output string directly.  -/

/-- One JSON record of the export conversion.  `metric` models the Rust
`HashMap<String, String>` as its entry list; `value` is the two-element
array `[timestamp, value]` produced from `parse::<f64>().unwrap_or(0.0)`. -/
structure MetricRecord where
  metric : List (String × String)
  value : ℚ × ℚ
deriving DecidableEq

/-- `HashMap::insert`: overwrite the value under an existing key, else add
the entry.  (Where the new entry lands in the iteration order is
unspecified for a Rust `HashMap`; this model appends.) -/
def hmInsert (m : List (String × String)) (k v : String) : List (String × String) :=
  if m.any (fun p => p.1 = k) then m.map (fun p => if p.1 = k then (k, v) else p)
  else m ++ [(k, v)]

/-- The export converters skip a line when `line.starts_with('#') ||
line.trim().is_empty()`. -/
def lineSkippedExport (line : String) : Bool :=
  startsWithS line "#" || (strTrim line).data.isEmpty

/-- Label-block parsing of the `Json` branch: split on commas, split each
piece at the first `=`, unquote the value, insert. -/
def parseLabelBlock (labels : List Char) (m0 : List (String × String)) : List (String × String) :=
  (splitCharL ',' labels).foldl (fun m lab =>
    match splitOnceL '=' lab with
    | some (k, v) => hmInsert m (String.mk k) (String.mk (trimQuotes v))
    | none => m) m0

/-- The per-line body of the `Json` branch (the code inside
`if let Some((metric_part, value_part)) = line.rsplit_once(' ')`). -/
def jsonLineRecord (line : String) : Option MetricRecord :=
  match rsplitOnceL ' ' line.data with
  | none => none
  | some (metricPart, valuePart) =>
    let metricInfo :=
      match splitOnceL lbraceC metricPart with
      | some (name, labels) =>
        let m := hmInsert [] "__name__" (String.mk name)
        match stripRBrace labels with
        | some inner => parseLabelBlock inner m
        | none => m
      | none => hmInsert [] "__name__" (String.mk metricPart)
    match rsplitOnceL ' ' valuePart with
    | none => none
    | some (ts, v) =>
      some ⟨metricInfo, ((parseF64Rat (String.mk ts)).getD 0, (parseF64Rat (String.mk v)).getD 0)⟩

/-- `ExportCommand::format_data`, `ExportFormat::Json` branch: the record
array serialized at the end of the branch. -/
def format_data_json (data : String) : List MetricRecord :=
  (rustLines data).filterMap (fun line =>
    if lineSkippedExport line then none else jsonLineRecord line)

/-- The per-line body of the `Csv` branch, producing the appended row text. -/
def csvLineRow (line : String) : Option String :=
  match rsplitOnceL ' ' line.data with
  | none => none
  | some (metricPart, valuePart) =>
    let metricName :=
      match splitOnceL lbraceC metricPart with
      | some (name, _) => name
      | none => metricPart
    match rsplitOnceL ' ' valuePart with
    | none => none
    | some (ts, v) =>
      some ("\n" ++ String.mk ts ++ "," ++ String.mk v ++ "," ++ String.mk metricName)

/-- `ExportCommand::format_data`, `ExportFormat::Csv` branch. -/
def format_data_csv (data : String) : String :=
  "timestamp,value,metric_name" ++
    String.join ((rustLines data).filterMap (fun line =>
      if lineSkippedExport line then none else csvLineRow line))

/-! ## `src/commands/import.rs` -/

/-- `ImportCommand::convert_json_to_prometheus`, one line of output per
record.  In the source the name comes from `metric["__name__"]` (nothing is
pushed when the key is missing; `"unknown"` replaces a non-string value, a
case the model's string-valued maps cannot represent), labels are all other
entries rendered `key="value"` and joined with commas inside braces, and
the line is `metric value timestamp-as-i64`. -/
def recordLine (r : MetricRecord) : String :=
  let nameStr :=
    match r.metric.find? (fun p => p.1 = "__name__") with
    | some p => p.2
    | none => ""
  let labels := (r.metric.filter (fun p => p.1 ≠ "__name__")).map
    (fun p => p.1 ++ "=" ++ quoteS ++ p.2 ++ quoteS)
  let metricStr :=
    if labels.isEmpty then nameStr
    else nameStr ++ lbraceS ++ joinSep "," labels ++ rbraceS
  metricStr ++ " " ++ f64Str r.value.2 ++ " " ++ toString (ratTrunc r.value.1) ++ "\n"

/-- `ImportCommand::convert_json_to_prometheus` on an already-deserialized
record array (`serde_json` parsing of the input text is abstracted; items
without a well-shaped `metric` object or two-element `value` array are
skipped by the source and cannot be represented in `MetricRecord`). -/
def convert_json_to_prometheus (records : List MetricRecord) : String :=
  String.join (records.map recordLine)

/-- `ImportCommand::is_valid_prometheus_line`. -/
def is_valid_prometheus_line (line : String) : Bool :=
  match rsplitOnceL ' ' line.data with
  | none => false
  | some (metricPart, valuePart) =>
    if metricPart.contains lbraceC && !(metricPart.contains rbraceC) then false
    else
      match rsplitOnceL ' ' valuePart with
      | some (ts, v) => parseF64Ok (String.mk ts) && parseF64Ok (String.mk v)
      | none => parseF64Ok (String.mk valuePart)

/-- Loop body of `ImportCommand::validate_prometheus_format` over
`(line-index, raw line)` pairs.  The `Except.error` payload is the
`(line_num + 1, trimmed content)` of `VmCliError::InvalidQuery`; the
`Except.ok` payload is `(error_count, warnings printed to stderr)`, each
warning carrying the 1-based line number and trimmed content.  (The
`line_count` variable and the stdout summary line are presentation only and
are not modelled.) -/
def validateGo (skipErrors : Bool) : List (Nat × String) → Except (Nat × String) (Nat × List (Nat × String))
  | [] => .ok (0, [])
  | (i, raw) :: rest =>
    let line := strTrim raw
    if line.data.isEmpty || startsWithS line "#" then validateGo skipErrors rest
    else if is_valid_prometheus_line line then validateGo skipErrors rest
    else if skipErrors then
      match validateGo skipErrors rest with
      | .ok (c, ws) => .ok (c + 1, (i + 1, line) :: ws)
      | .error e => .error e
    else .error (i + 1, line)

/-- `ImportCommand::validate_prometheus_format`. -/
def validate_prometheus_format (skipErrors : Bool) (content : String) :
    Except (Nat × String) (Nat × List (Nat × String)) :=
  validateGo skipErrors (rustLines content).enum

/-! ## `src/utils.rs`: time ranges and query validation -/

/-- `parse_time_range`.  `chrono::Utc::now()` is passed explicitly as `now`
(unix seconds); `now - Duration::hours(h)` and `now - Duration::days(d)`
shift the timeline by exactly `3600 * h` resp. `86400 * d` seconds, so the
two `timestamp().to_string()` results are as below. -/
def parse_time_range (now : Int) (range : String) : Except String (String × String) :=
  if range = "1h" ∨ range = "1hour" then .ok (toString (now - 3600), toString now)
  else if range = "6h" ∨ range = "6hours" then .ok (toString (now - 21600), toString now)
  else if range = "24h" ∨ range = "1d" ∨ range = "1day" then .ok (toString (now - 86400), toString now)
  else if range = "7d" ∨ range = "7days" then .ok (toString (now - 604800), toString now)
  else if range = "30d" ∨ range = "30days" then .ok (toString (now - 2592000), toString now)
  else .error ("Неизвестный диапазон времени: " ++ range)

def valid_operators : List String :=
  ["+", "-", "*", "/", "%", "==", "!=", ">", "<", ">=", "<="]

def valid_functions : List String :=
  ["sum", "avg", "count", "min", "max", "rate", "increase"]

/-- The character class of the `is_simple_metric` check.  Rust
`char::is_alphanumeric` is Unicode-aware; it is passed in as `isAlnum` so
that every statement below holds for any alphanumeric predicate. -/
def isSimpleMetricChar (isAlnum : Char → Bool) (c : Char) : Bool :=
  isAlnum c || c = '_' || c = lbraceC || c = rbraceC || c = '=' || c = quoteC || c = ',' || c = ' '

/-- `validate_promql_query`. -/
def validate_promql_query (isAlnum : Char → Bool) (query : String) : Except String Unit :=
  if (strTrim query).data.isEmpty then .error "Запрос не может быть пустым"
  else
    let hasOperator := valid_operators.any (fun op => containsSub query op)
    let hasFunction := valid_functions.any (fun f => containsSub query f)
    let isSimpleMetric := query.data.all (isSimpleMetricChar isAlnum)
    if !hasOperator && !hasFunction && !(query.data.contains lbraceC) && !isSimpleMetric then
      .error "Запрос должен содержать операторы, функции или быть валидной метрикой"
    else .ok ()

/-! ## `src/api.rs` data model and `src/utils.rs` query-result formatters -/

/-- `QueryResult` of `src/api.rs`.  `metric` models the
`HashMap<String, String>` as its entries in the map's iteration order;
`value`/`values` hold `(f64 timestamp, String value)` samples. -/
structure QueryResult where
  metric : List (String × String)
  value : Option (ℚ × String)
  values : Option (List (ℚ × String))
deriving DecidableEq

structure QueryData where
  result_type : Option String
  result : List QueryResult
deriving DecidableEq

structure QueryResponse where
  status : String
  data : QueryData
deriving DecidableEq

/-- Which iteration orders can a Rust `std::collections::HashMap` built by
inserting the distinct-keyed entries of `wire` (in order) present?  The
order is unspecified (seeded hashing), so: any permutation of the entries. -/
def IsHashMapIterationOf (m wire : List (String × String)) : Prop := m.Perm wire

/-- `MetricRow` of `format_table` (the `Tabled` row struct). -/
structure MetricRow where
  timestamp : String
  value : String
  labels : String
deriving DecidableEq

/-- `format_labels`: `key=value` pairs joined with `", "`, in map iteration
order. -/
def format_labels (labels : List (String × String)) : String :=
  joinSep ", " (labels.map (fun p => p.1 ++ "=" ++ p.2))

/-- Loop body of `format_table`: a row for a result iff its `value` field
is populated. -/
def rowOfResult (r : QueryResult) : Option MetricRow :=
  r.value.map (fun tv => ⟨f64Str tv.1, tv.2, format_labels r.metric⟩)

def tableRows (data : QueryResponse) : List MetricRow :=
  data.data.result.filterMap rowOfResult

/-- `format_table`: `Sum.inl` is the literal no-data placeholder string the
source returns (terminal coloring dropped); `Sum.inr` carries the rows
handed to `tabled::Table::new` (the box-drawing rendering is abstracted). -/
def format_table (data : QueryResponse) : String ⊕ List MetricRow :=
  let rows := tableRows data
  if rows.isEmpty then Sum.inl "Нет данных для отображения" else Sum.inr rows

/-- Header of `format_csv`: `timestamp,value` then the first result's label
keys in map iteration order. -/
def csvHeader (first : QueryResult) : List String :=
  "timestamp" :: "value" :: first.metric.map Prod.fst

/-- Loop body of `format_csv`: a row for a result iff its `value` field is
populated; label cells are looked up under the header's keys, defaulting to
the empty string. -/
def csvRowOf (headers : List String) (r : QueryResult) : Option (List String) :=
  r.value.map (fun tv =>
    f64Str tv.1 :: tv.2 ::
      (headers.drop 2).map (fun h => ((r.metric.find? (fun p => p.1 = h)).map Prod.snd).getD ""))

/-- `format_csv`, modelled as the list of comma-rows (the `','`/`'\n'`
joining into one string is surface syntax).  An empty result list produces
no output at all — not even the header. -/
def format_csv (data : QueryResponse) : List (List String) :=
  match data.data.result with
  | [] => []
  | first :: _ =>
    csvHeader first :: data.data.result.filterMap (csvRowOf (csvHeader first))

inductive OutputFormat where
  | json
  | yaml
  | table
  | csv
deriving DecidableEq

/-- Results of `format_output`: `Json`/`Yaml` serialize the full response
structurally (`serde` pretty-printing abstracted), the other two are the
formatters above. -/
inductive Rendered where
  | structured (resp : QueryResponse)
  | table (t : String ⊕ List MetricRow)
  | csv (rows : List (List String))
deriving DecidableEq

/-- `format_output`. -/
def format_output (data : QueryResponse) (format : OutputFormat) : Rendered :=
  match format with
  | .json => .structured data
  | .yaml => .structured data
  | .table => .table (format_table data)
  | .csv => .csv (format_csv data)

/-! ## `src/utils.rs`: `format_percentage` -/

/-- Banker's rounding to an integer, the rounding Rust's `{:.2}` float
formatting applies at the cut digit. -/
def roundHalfEven (q : ℚ) : Int :=
  let f := q.floor
  let r := ratAdd q (Rat.neg (intRat f))
  if Rat.blt r (Rat.divInt 1 2) then f
  else if Rat.blt (Rat.divInt 1 2) r then f + 1
  else if f % 2 = 0 then f else f + 1

/-- `format!("{:.2}", q)` on the exact value. -/
def fmt2 (q : ℚ) : String :=
  let n := roundHalfEven (ratMul q (intRat 100))
  let sign := if n < 0 then "-" else ""
  let a := n.natAbs
  sign ++ toString (a / 100) ++ "." ++ (if a % 100 < 10 then "0" else "") ++ toString (a % 100)

/-- `format_percentage` (f64 arguments modelled as exact rationals). -/
def format_percentage (value total : ℚ) : String :=
  if total = 0 then "0.00%"
  else fmt2 (ratMul (ratDiv value total) (intRat 100)) ++ "%"


/-! ## Claim-side characterizations (used to state the theorems below) -/

/-- The fixed token table of `parse_time_range` with the documented
duration (in seconds) of each token. -/
def rangeTokens : List (String × Int) :=
  [("1h", 3600), ("1hour", 3600), ("6h", 21600), ("6hours", 21600),
   ("24h", 86400), ("1d", 86400), ("1day", 86400),
   ("7d", 604800), ("7days", 604800), ("30d", 2592000), ("30days", 2592000)]

/-- The spec's data-model invariant: exactly one of the two sample forms of
a `QueryResult` is populated. -/
def exactlyOneSample (r : QueryResult) : Prop :=
  (r.value.isSome = true ∧ r.values = none) ∨ (r.value = none ∧ r.values.isSome = true)

instance (r : QueryResult) : Decidable (exactlyOneSample r) :=
  inferInstanceAs (Decidable (_ ∨ _))

/-- The table row a single-sample result produces (dummy row for results
without a single sample, which produce no row at all). -/
def rowOfSingle (r : QueryResult) : MetricRow :=
  match r.value with
  | some tv => ⟨f64Str tv.1, tv.2, format_labels r.metric⟩
  | none => ⟨"", "", ""⟩

/-- The malformed-line report of `validate_prometheus_format`: the
`(1-based line number, trimmed content)` of every line that is neither
blank nor a comment and fails `is_valid_prometheus_line`, in input order. -/
def badLinesGo : List (Nat × String) → List (Nat × String)
  | [] => []
  | (i, raw) :: rest =>
    let line := strTrim raw
    if line.data.isEmpty || startsWithS line "#" then badLinesGo rest
    else if is_valid_prometheus_line line then badLinesGo rest
    else (i + 1, line) :: badLinesGo rest

def badLines (content : String) : List (Nat × String) :=
  badLinesGo (rustLines content).enum

/-- A `QueryResult` with *both* sample forms populated (legal for the
deserialized wire type). -/
def rBoth : QueryResult :=
  ⟨[("a", "1")], some (intRat 5, "7"), some [(intRat 5, "7"), (intRat 6, "8")]⟩

/-- A response carrying `rBoth` only. -/
def respBoth : QueryResponse := ⟨"success", ⟨some "vector", [rBoth]⟩⟩

/-- Concrete response for the C6 witness: one single-sample result followed
by one multi-sample (range) result. -/
def wRespC6 : QueryResponse :=
  ⟨"success", ⟨some "vector",
    [⟨[("a", "1")], some (intRat 17, "42"), none⟩,
     ⟨[], none, some [(intRat 1, "2")]⟩]⟩⟩

/-- Concrete response for the C8 witness. -/
def wRespC8 : QueryResponse :=
  ⟨"success", ⟨none, [⟨[("a", "1"), ("b", "2")], some (intRat 5, "7"), none⟩]⟩⟩

/-! ## Helper lemmas -/

theorem strAppendEmpty (s : String) : s ++ "" = s := by
  cases s with
  | mk l => show String.mk (l ++ []) = String.mk l; rw [List.append_nil]

theorem splitOnceL_not_mem_left {c : Char} :
    ∀ {l a b : List Char}, splitOnceL c l = some (a, b) → c ∉ a := by
  intro l
  induction l with
  | nil => intro a b h; simp [splitOnceL] at h
  | cons x xs ih =>
    intro a b h
    by_cases hx : x = c
    · simp only [splitOnceL, if_pos hx, Option.some.injEq, Prod.mk.injEq] at h
      rw [← h.1]
      simp
    · simp only [splitOnceL, if_neg hx, Option.map_eq_some'] at h
      obtain ⟨p, hp, heq⟩ := h
      have hmem := ih hp
      rw [Prod.mk.injEq] at heq
      rw [← heq.1]
      intro hc
      rcases List.mem_cons.1 hc with h1 | h1
      · exact hx h1.symm
      · exact hmem h1

theorem splitOnceL_eq_none {c : Char} :
    ∀ {l : List Char}, c ∉ l → splitOnceL c l = none := by
  intro l
  induction l with
  | nil => intro _; rfl
  | cons x xs ih =>
    intro h
    have hx : ¬x = c := fun hxc => h (by rw [hxc]; exact List.mem_cons_self _ _)
    have hxs : c ∉ xs := fun hc => h (List.mem_cons_of_mem _ hc)
    simp only [splitOnceL, if_neg hx, ih hxs, Option.map_none']

theorem rsplitOnceL_not_mem_right {c : Char} {l a b : List Char}
    (h : rsplitOnceL c l = some (a, b)) : c ∉ b := by
  unfold rsplitOnceL at h
  rw [Option.map_eq_some'] at h
  obtain ⟨p, hp, heq⟩ := h
  rw [Prod.mk.injEq] at heq
  have hmem := splitOnceL_not_mem_left hp
  rw [← heq.2]
  intro hc
  exact hmem (List.mem_reverse.1 hc)

theorem rsplitOnceL_eq_none {c : Char} {l : List Char} (h : c ∉ l) :
    rsplitOnceL c l = none := by
  unfold rsplitOnceL
  rw [splitOnceL_eq_none (fun hc => h (List.mem_reverse.1 hc))]
  rfl

theorem jsonLineRecord_eq_none (line : String) : jsonLineRecord line = none := by
  cases h : rsplitOnceL ' ' line.data with
  | none => simp [jsonLineRecord, h]
  | some p =>
    obtain ⟨mp, vp⟩ := p
    have hv : rsplitOnceL ' ' vp = none :=
      rsplitOnceL_eq_none (rsplitOnceL_not_mem_right h)
    simp [jsonLineRecord, h, hv]

theorem csvLineRow_eq_none (line : String) : csvLineRow line = none := by
  cases h : rsplitOnceL ' ' line.data with
  | none => simp [csvLineRow, h]
  | some p =>
    obtain ⟨mp, vp⟩ := p
    have hv : rsplitOnceL ' ' vp = none :=
      rsplitOnceL_eq_none (rsplitOnceL_not_mem_right h)
    simp [csvLineRow, h, hv]

theorem format_data_json_nil (s : String) : format_data_json s = [] := by
  unfold format_data_json
  rw [List.filterMap_eq_nil_iff]
  intro line _
  by_cases hs : lineSkippedExport line
  · rw [if_pos hs]
  · rw [if_neg hs]; exact jsonLineRecord_eq_none line

theorem format_data_csv_header_only (s : String) :
    format_data_csv s = "timestamp,value,metric_name" := by
  unfold format_data_csv
  have h : (rustLines s).filterMap
      (fun line => if lineSkippedExport line then none else csvLineRow line) = [] := by
    rw [List.filterMap_eq_nil_iff]
    intro line _
    by_cases hs : lineSkippedExport line
    · rw [if_pos hs]
    · rw [if_neg hs]; exact csvLineRow_eq_none line
  rw [h]
  exact strAppendEmpty _

/-! ## Claim theorems -/

/-- C1: the claim states that `export --format json` emits exactly one
record per well-formed exposition line, with
`metric\x7ba="1",b="2"\x7d 3.5 1700000000` yielding one record.  The code
does not: `value_part` of the outer `rsplit_once(' ')` is the text after
the line's *last* space, so the inner `value_part.rsplit_once(' ')` never
succeeds and no line ever emits a record — the JSON conversion returns the
empty array on every input, in particular on the claim's example line. -/
theorem c1_export_json_emits_no_records :
    format_data_json "metric\x7ba=\"1\",b=\"2\"\x7d 3.5 1700000000" = [] ∧
    ∀ s : String, format_data_json s = [] :=
  ⟨format_data_json_nil _, format_data_json_nil⟩

/-- C2: the claimed round-trip (exposition → structured records →
exposition) cannot reproduce anything: the first leg always produces the
empty record array (see C1), so the composed conversion returns the empty
string for every input, in particular for the well-formed example line. -/
theorem c2_roundtrip_collapses_to_empty :
    (∀ s : String, convert_json_to_prometheus (format_data_json s) = "") ∧
    convert_json_to_prometheus (format_data_json "metric\x7ba=\"1\",b=\"2\"\x7d 3.5 1700000000") = "" := by
  constructor
  · intro s
    rw [format_data_json_nil]
    rfl
  · rw [format_data_json_nil]
    rfl

/-- C5: the claim states that `export --format csv` emits the header plus
one row per valid sample line.  The code's CSV branch has the same dead
inner `rsplit_once(' ')` as the JSON branch, so no row is ever appended:
the output is exactly the bare header for every input, in particular for
the well-formed example line. -/
theorem c5_export_csv_emits_header_only :
    format_data_csv "metric\x7ba=\"1\",b=\"2\"\x7d 3.5 1700000000" = "timestamp,value,metric_name" ∧
    ∀ s : String, format_data_csv s = "timestamp,value,metric_name" :=
  ⟨format_data_csv_header_only _, format_data_csv_header_only⟩

/-- C3: every token of the fixed case-sensitive set resolves to the window
`(now - duration, now)` — so end minus start is the documented duration and
start < end — and every other string fails with an error message carrying
the offending token verbatim. -/
theorem c3_parse_time_range_tokens (now : Int) :
    (∀ t d, (t, d) ∈ rangeTokens →
      parse_time_range now t = .ok (toString (now - d), toString now) ∧ now - d < now) ∧
    (∀ r : String, r ∉ rangeTokens.map Prod.fst →
      parse_time_range now r = .error ("Неизвестный диапазон времени: " ++ r)) := by
  constructor
  · intro t d h
    fin_cases h <;> exact ⟨rfl, by omega⟩
  · intro r h
    unfold parse_time_range
    split_ifs with h1 h2 h3 h4 h5
    · exact absurd (by rcases h1 with rfl | rfl <;> decide) h
    · exact absurd (by rcases h2 with rfl | rfl <;> decide) h
    · exact absurd (by rcases h3 with rfl | rfl | rfl <;> decide) h
    · exact absurd (by rcases h4 with rfl | rfl <;> decide) h
    · exact absurd (by rcases h5 with rfl | rfl <;> decide) h
    · rfl

/-- Witness for C3 at concrete inputs: `30d` resolves to the 30-day window
ending at `now = 0`, and the unsupported token `2h` fails with the token
echoed in the message. -/
theorem c3_parse_time_range_witness :
    (parse_time_range 0 "30d" = .ok ("-2592000", "0") ∧ (0 : Int) - 2592000 < 0) ∧
    parse_time_range 0 "2h" = .error "Неизвестный диапазон времени: 2h" := by
  refine ⟨⟨?_, ?_⟩, ?_⟩
  · rw [((c3_parse_time_range_tokens 0).1 "30d" 2592000 (by decide)).1]
    exact congrArg Except.ok (by decide)
  · exact ((c3_parse_time_range_tokens 0).1 "30d" 2592000 (by decide)).2
  · rw [(c3_parse_time_range_tokens 0).2 "2h" (by decide)]
    exact congrArg Except.error (by decide)

/-- C4: `validate_promql_query` rejects exactly the whitespace-only
strings up front, and otherwise accepts a query iff it contains one of the
fixed operators, or one of the fixed function-name substrings, or an
opening brace, or consists entirely of simple-metric characters
(alphanumeric, underscore, braces, equals, quote, comma, space).  Stated
for an arbitrary alphanumeric predicate standing in for Rust's
Unicode-aware `char::is_alphanumeric`. -/
theorem c4_validate_promql_query (isAlnum : Char → Bool) (q : String) :
    ((strTrim q).data.isEmpty = true →
      validate_promql_query isAlnum q = .error "Запрос не может быть пустым") ∧
    ((strTrim q).data.isEmpty = false →
      (validate_promql_query isAlnum q = .ok () ↔
        (valid_operators.any (fun op => containsSub q op) = true ∨
         valid_functions.any (fun fn => containsSub q fn) = true ∨
         q.data.contains lbraceC = true ∨
         q.data.all (isSimpleMetricChar isAlnum) = true))) := by
  constructor
  · intro h
    simp [validate_promql_query, h]
  · intro h
    by_cases hc : lbraceC ∈ q.data <;>
    cases ha : valid_operators.any (fun op => containsSub q op) <;>
    cases hb : valid_functions.any (fun fn => containsSub q fn) <;>
    cases hd : q.data.all (isSimpleMetricChar isAlnum) <;>
      simp [validate_promql_query, h, ha, hb, hc, hd]

/-- Witness for C4: the bare metric `up` passes, `rate(http_requests_total[5m])`
passes via the function-substring disjunct, and a whitespace-only query is
rejected as empty. -/
theorem c4_validate_promql_query_witness :
    validate_promql_query Char.isAlphanum "up" = .ok () ∧
    validate_promql_query Char.isAlphanum "rate(http_requests_total[5m])" = .ok () ∧
    validate_promql_query Char.isAlphanum "   " = .error "Запрос не может быть пустым" := by
  refine ⟨?_, ?_, ?_⟩
  · exact ((c4_validate_promql_query Char.isAlphanum "up").2 (by decide)).mpr
      (Or.inr (Or.inr (Or.inr (by decide))))
  · exact ((c4_validate_promql_query Char.isAlphanum "rate(http_requests_total[5m])").2
      (by decide)).mpr (Or.inr (Or.inl (by decide)))
  · exact (c4_validate_promql_query Char.isAlphanum "   ").1 (by decide)

theorem filterMap_rowOfResult (l : List QueryResult) :
    l.filterMap rowOfResult = (l.filter (fun r => r.value.isSome)).map rowOfSingle := by
  induction l with
  | nil => rfl
  | cons r t ih =>
    cases hv : r.value with
    | none => simp [List.filterMap_cons, List.filter_cons, rowOfResult, hv, ih]
    | some tv => simp [List.filterMap_cons, List.filter_cons, rowOfResult, rowOfSingle, hv, ih]

/-- C6: under the data-model invariant (exactly one sample form per
result), table rendering emits one row — timestamp, value, flattened
`key=value` labels — per single-sample result, in input order; every
result carrying a multi-sample series yields no row; and when no result
carries a single sample the renderer returns the literal placeholder
string instead of an empty table. -/
theorem c6_format_table_rows (data : QueryResponse)
    (hinv : ∀ r ∈ data.data.result, exactlyOneSample r) :
    (format_table data =
      if (data.data.result.filter (fun r => r.value.isSome)).isEmpty
      then Sum.inl "Нет данных для отображения"
      else Sum.inr ((data.data.result.filter (fun r => r.value.isSome)).map rowOfSingle)) ∧
    (∀ r ∈ data.data.result, r.values.isSome = true → rowOfResult r = none) := by
  constructor
  · unfold format_table tableRows
    rw [filterMap_rowOfResult]
    by_cases he : data.data.result.filter (fun r => r.value.isSome) = []
    · simp [he]
    · simp [he]
  · intro r hr hvs
    rcases hinv r hr with ⟨_, hn⟩ | ⟨hv, _⟩
    · rw [hn] at hvs
      cases hvs
    · simp [rowOfResult, hv]

/-- Witness for C6: on a concrete response holding one single-sample
result and one multi-sample result, the table has exactly the one
single-sample row. -/
theorem c6_format_table_rows_witness :
    format_table wRespC6 = Sum.inr [⟨"17", "42", "a=1"⟩] := by
  rw [(c6_format_table_rows wRespC6 (by decide)).1]
  decide

theorem validateGo_true_eq (l : List (Nat × String)) :
    validateGo true l = .ok ((badLinesGo l).length, badLinesGo l) := by
  induction l with
  | nil => rfl
  | cons p rest ih =>
    obtain ⟨i, raw⟩ := p
    by_cases h1 : ((strTrim raw).data.isEmpty || startsWithS (strTrim raw) "#") = true
    · simp [validateGo, badLinesGo, h1, ih]
    · by_cases h2 : is_valid_prometheus_line (strTrim raw) = true
      · simp [validateGo, badLinesGo, h1, h2, ih]
      · simp [validateGo, badLinesGo, h1, h2, ih]

theorem validateGo_false_eq (l : List (Nat × String)) :
    validateGo false l =
      (match badLinesGo l with
       | [] => .ok (0, [])
       | b :: _ => .error b) := by
  induction l with
  | nil => rfl
  | cons p rest ih =>
    obtain ⟨i, raw⟩ := p
    by_cases h1 : ((strTrim raw).data.isEmpty || startsWithS (strTrim raw) "#") = true
    · simp [validateGo, badLinesGo, h1, ih]
    · by_cases h2 : is_valid_prometheus_line (strTrim raw) = true
      · simp [validateGo, badLinesGo, h1, h2, ih]
      · simp [validateGo, badLinesGo, h1, h2]

theorem mem_badLinesGo {p : Nat × String} :
    ∀ {l : List (Nat × String)}, p ∈ badLinesGo l →
      ∃ i raw, (i, raw) ∈ l ∧ p = (i + 1, strTrim raw) ∧
        (strTrim raw).data.isEmpty = false ∧ startsWithS (strTrim raw) "#" = false ∧
        is_valid_prometheus_line (strTrim raw) = false := by
  intro l
  induction l with
  | nil => intro h; cases h
  | cons q rest ih =>
    obtain ⟨i, raw⟩ := q
    intro h
    by_cases h1 : ((strTrim raw).data.isEmpty || startsWithS (strTrim raw) "#") = true
    · rw [show badLinesGo ((i, raw) :: rest) = badLinesGo rest by simp [badLinesGo, h1]] at h
      obtain ⟨j, raw2, hm, hrest⟩ := ih h
      exact ⟨j, raw2, List.mem_cons_of_mem _ hm, hrest⟩
    · by_cases h2 : is_valid_prometheus_line (strTrim raw) = true
      · rw [show badLinesGo ((i, raw) :: rest) = badLinesGo rest by simp [badLinesGo, h1, h2]] at h
        obtain ⟨j, raw2, hm, hrest⟩ := ih h
        exact ⟨j, raw2, List.mem_cons_of_mem _ hm, hrest⟩
      · rw [show badLinesGo ((i, raw) :: rest) = (i + 1, strTrim raw) :: badLinesGo rest by
          simp [badLinesGo, h1, h2]] at h
        rcases List.mem_cons.1 h with h3 | h3
        · simp only [Bool.or_eq_true, not_or, Bool.not_eq_true] at h1
          rw [Bool.not_eq_true] at h2
          exact ⟨i, raw, List.mem_cons_self _ _, h3, h1.1, h1.2, h2⟩
        · obtain ⟨j, raw2, hm, hrest⟩ := ih h3
          exact ⟨j, raw2, List.mem_cons_of_mem _ hm, hrest⟩

/-- C7: prometheus-import validation.  `badLines` collects, in input
order, the `(1-based number, trimmed content)` of every line that is
neither blank-after-trim nor a comment and is malformed (clause 4: every
reported line is of that kind, so blank/comment lines are never counted in
either mode).  Strict mode (`skip_errors` off) succeeds when there is no
such line and otherwise aborts with the *first* one as its error payload;
lenient mode (`skip_errors` on) always returns success, with the malformed
count and the per-line stderr warnings. -/
theorem c7_validate_prometheus_format (content : String) :
    (badLines content = [] →
      ∀ skipErrors, validate_prometheus_format skipErrors content = .ok (0, [])) ∧
    (∀ b bs, badLines content = b :: bs →
      validate_prometheus_format false content = .error b) ∧
    (validate_prometheus_format true content =
      .ok ((badLines content).length, badLines content)) ∧
    (∀ p ∈ badLines content, ∃ i raw, (i, raw) ∈ (rustLines content).enum ∧
      p = (i + 1, strTrim raw) ∧ (strTrim raw).data.isEmpty = false ∧
      startsWithS (strTrim raw) "#" = false ∧
      is_valid_prometheus_line (strTrim raw) = false) := by
  refine ⟨?_, ?_, ?_, ?_⟩
  · intro h skipErrors
    cases skipErrors
    · rw [validate_prometheus_format, validateGo_false_eq]
      unfold badLines at h
      rw [h]
    · rw [validate_prometheus_format, validateGo_true_eq]
      unfold badLines at h
      rw [h]
      rfl
  · intro b bs h
    rw [validate_prometheus_format, validateGo_false_eq]
    unfold badLines at h
    rw [h]
  · rw [validate_prometheus_format, validateGo_true_eq]
    rfl
  · intro p hp
    exact mem_badLinesGo hp

/-- Witness for C7 on concrete content: a comment line, a blank line, the
spec's unbalanced-brace line (line 3) and a valid line.  Strict mode
aborts with line 3 and its content; lenient mode succeeds reporting
exactly that one malformed line. -/
theorem c7_validate_prometheus_format_witness :
    validate_prometheus_format false "# c\n\nmetric\x7ba=\"1\" 3.5 1700000000\nup 1" =
      .error (3, "metric\x7ba=\"1\" 3.5 1700000000") ∧
    validate_prometheus_format true "# c\n\nmetric\x7ba=\"1\" 3.5 1700000000\nup 1" =
      .ok (1, [(3, "metric\x7ba=\"1\" 3.5 1700000000")]) := by
  constructor
  · exact (c7_validate_prometheus_format _).2.1
      (3, "metric\x7ba=\"1\" 3.5 1700000000") [] (by decide)
  · rw [(c7_validate_prometheus_format
      "# c\n\nmetric\x7ba=\"1\" 3.5 1700000000\nup 1").2.2.1]
    exact congrArg Except.ok (by decide)

/-- C8 counterexample: the claim requires rendered label keys to follow
the wire response's insertion order, but the label map is a
`std::collections::HashMap`, whose iteration order is unspecified: a map
holding the wire entries `a=1, b=2` may iterate as `b, a`, and the CSV
header then lists `b` before `a`. -/
theorem c8_label_keys_not_insertion_order :
    ¬ (∀ (wire m : List (String × String)), IsHashMapIterationOf m wire →
        csvHeader ⟨m, none, none⟩ = "timestamp" :: "value" :: wire.map Prod.fst) := by
  intro h
  have hp : IsHashMapIterationOf [("b", "2"), ("a", "1")] [("a", "1"), ("b", "2")] := by
    unfold IsHashMapIterationOf
    decide
  exact absurd (h _ _ hp) (by decide)

/-- C8 amended: the formatter is a pure (hence deterministic) projection,
and the label keys it renders appear in the label map's *iteration* order
— which for a `HashMap` need not be the wire insertion order: the CSV
header is `timestamp, value` followed by the first result's keys in
iteration order, every data row's label cells follow that same header, and
a table row flattens the pairs in iteration order. -/
theorem c8_formatter_iteration_order (data : QueryResponse)
    (first : QueryResult) (rest : List QueryResult)
    (h : data.data.result = first :: rest) :
    (∀ fmt : OutputFormat, format_output data fmt = format_output data fmt) ∧
    format_csv data = ("timestamp" :: "value" :: first.metric.map Prod.fst) ::
      ((first :: rest).filterMap
        (csvRowOf ("timestamp" :: "value" :: first.metric.map Prod.fst))) ∧
    (∀ (r : QueryResult) (tv : ℚ × String), r.value = some tv →
      rowOfResult r = some ⟨f64Str tv.1, tv.2,
        joinSep ", " (r.metric.map (fun p => p.1 ++ "=" ++ p.2))⟩) := by
  refine ⟨fun _ => rfl, ?_, ?_⟩
  · unfold format_csv csvHeader
    rw [h]
  · intro r tv hv
    simp [rowOfResult, hv, format_labels]

/-- Witness for C8 amended: on a concrete single-result response whose map
iterates `a` then `b`, the CSV is the header followed by the one row, with
label columns in that iteration order. -/
theorem c8_formatter_iteration_order_witness :
    format_csv wRespC8 =
      [["timestamp", "value", "a", "b"], ["5", "7", "1", "2"]] := by
  rw [(c8_formatter_iteration_order wRespC8 ⟨[("a", "1"), ("b", "2")], some (intRat 5, "7"), none⟩ [] rfl).2.1]
  decide

/-- C9 counterexample: nothing enforces the exactly-one-sample-form
invariant — `rBoth` populates both forms, lives in a well-typed response,
and is *handled* by the formatters: `format_table` renders it as a
single-sample row instead of rejecting it. -/
theorem c9_sample_forms_not_exclusive :
    (¬ ∀ (data : QueryResponse), ∀ r ∈ data.data.result, exactlyOneSample r) ∧
    ¬ exactlyOneSample rBoth ∧
    format_table respBoth = Sum.inr [⟨"5", "7", "a=1"⟩] := by
  refine ⟨?_, by decide, by decide⟩
  intro h
  exact absurd (h respBoth rBoth (by simp [respBoth])) (by decide)

/-- C9 amended: the `QueryResult` type permits both or neither sample form
and the formatters accept every such value, keying solely on whether the
single-sample field is populated: a populated `value` yields a table/CSV
row whatever `values` holds, and an absent `value` yields none whatever
`values` holds. -/
theorem c9_formatters_select_on_value_only (m : List (String × String))
    (tv : ℚ × String) (vs : Option (List (ℚ × String))) (hs : List String) :
    rowOfResult ⟨m, some tv, vs⟩ = some ⟨f64Str tv.1, tv.2, format_labels m⟩ ∧
    rowOfResult ⟨m, none, vs⟩ = none ∧
    csvRowOf hs ⟨m, some tv, vs⟩ = some (f64Str tv.1 :: tv.2 ::
      (hs.drop 2).map (fun h => ((m.find? (fun p => p.1 = h)).map Prod.snd).getD "")) ∧
    csvRowOf hs ⟨m, none, vs⟩ = none :=
  ⟨rfl, rfl, rfl, rfl⟩

/-- C10: `format_percentage` is total: a zero total short-circuits to the
literal `"0.00%"` before any division, and a nonzero total renders
`(value/total)*100` to two decimals with a percent sign. -/
theorem c10_format_percentage_total (v t : ℚ) :
    (t = 0 → format_percentage v t = "0.00%") ∧
    (t ≠ 0 → format_percentage v t = fmt2 (ratMul (ratDiv v t) (intRat 100)) ++ "%") := by
  constructor
  · intro h
    simp [format_percentage, h]
  · intro h
    simp [format_percentage, h]

/-- Witness for C10: the guarded zero-total case and a concrete division
(1/4 → 25.00%). -/
theorem c10_format_percentage_witness :
    format_percentage (intRat 1) (intRat 0) = "0.00%" ∧
    format_percentage (intRat 1) (intRat 4) = "25.00%" := by
  constructor
  · exact (c10_format_percentage_total (intRat 1) (intRat 0)).1 (by decide)
  · rw [(c10_format_percentage_total (intRat 1) (intRat 4)).2 (by decide)]
    decide

end VmCli
